import Mathlib

/-!
Verification of the audio-ingestion pipeline (`src/main.py`):
payload validation chain, per-file base64 decoding and duration
computation, and the orchestration that turns a batch of files
into stored metadata records plus a summarized response.

Strings are Lean `String`s; byte sequences are `List Nat` (values < 256).
Database effects are modelled as explicit state passing over a list of
`MetadataRecord`; storage failures (sqlite errors raised as HTTP 500 and
swallowed per file) are modelled by an environment oracle `env : Nat → Bool`
giving the outcome of the store call for the file at each batch position.
-/

/-! ## Base64, as used by `base64.b64decode` / `base64.b64encode`

On Python 3.11, `base64.b64decode(s, validate=True)` first requires `s` to
be ASCII and to fully match `[A-Za-z0-9+/]*={0,2}`, then runs
`binascii.a2b_base64` in strict mode (leading padding, excess data after
padding, and discontinuous padding all raise).  `base64.b64decode(s)` (the
processing path, line 162) skips the regex check and runs the decoder in
non-strict mode: non-alphabet characters are discarded by the decoder
itself.  We model the CPython 3.11 decoding loop directly: `quadPos` is
the position within the current 4-character group, `leftchar` the pending
bits, `pads` the count of padding characters seen at `quadPos ≥ 2`,
`padStarted` whether any padding character has been seen. -/

/-- Value of a base64 alphabet character (`A`-`Z`, `a`-`z`, `0`-`9`, `+`, `/`),
or `none` for any other character. -/
def b64Index (c : Char) : Option Nat :=
  if 'A' ≤ c ∧ c ≤ 'Z' then some (c.toNat - 65)
  else if 'a' ≤ c ∧ c ≤ 'z' then some (c.toNat - 71)
  else if '0' ≤ c ∧ c ≤ '9' then some (c.toNat + 4)
  else if c = '+' then some 62
  else if c = '/' then some 63
  else none

/-- Character for a 6-bit value, via the standard base64 alphabet. -/
def b64Char (n : Nat) : Char :=
  ("ABCDEFGHIJKLMNOPQRSTUVWXYZabcdefghijklmnopqrstuvwxyz0123456789+/".data).getD n 'A'

/-- The main loop of CPython 3.11 `binascii.a2b_base64`.  A padding
character at `quadPos ≥ 2` that completes the quad ends decoding
successfully; in strict mode any remaining input then raises ("Excess data
after padding"), in non-strict mode it is ignored.  Non-alphabet characters
raise in strict mode ("Only base64 data is allowed") and are skipped in
non-strict mode; a data character after padding raises in strict mode
("Discontinuous padding").  At end of input the quad must be complete, else
the call raises (`none`). -/
def a2bBase64 (strict : Bool) :
    List Char → Nat → Nat → Nat → Bool → List Nat → Option (List Nat)
  | [], quadPos, _, _, _, acc =>
      if quadPos = 0 then some acc.reverse else none
  | c :: rest, quadPos, leftchar, pads, padStarted, acc =>
      if c = '=' then
        if 2 ≤ quadPos then
          if 4 ≤ quadPos + (pads + 1) then
            if strict ∧ rest ≠ [] then none
            else some acc.reverse
          else a2bBase64 strict rest quadPos leftchar (pads + 1) true acc
        else a2bBase64 strict rest quadPos leftchar pads true acc
      else
        match b64Index c with
        | none =>
            if strict then none
            else a2bBase64 strict rest quadPos leftchar pads padStarted acc
        | some v =>
          if strict ∧ padStarted then none
          else
            match quadPos with
            | 0 => a2bBase64 strict rest 1 v 0 padStarted acc
            | 1 => a2bBase64 strict rest 2 (v % 16) 0 padStarted
                ((leftchar * 4 + v / 16) :: acc)
            | 2 => a2bBase64 strict rest 3 (v % 4) 0 padStarted
                ((leftchar * 16 + v / 4) :: acc)
            | _ => a2bBase64 strict rest 0 0 0 padStarted
                ((leftchar * 64 + v) :: acc)

/-- The suffix of a base64 string after its alphabet characters: at most two
`=` characters (`={0,2}` of the validation regex). -/
def b64PadTail : List Char → Bool
  | [] => true
  | ['='] => true
  | ['=', '='] => true
  | _ => false

/-- Full match of `[A-Za-z0-9+/]*={0,2}`: the well-formedness regex applied
by `base64.b64decode(..., validate=True)`. -/
def b64ValidFormat : List Char → Bool
  | [] => true
  | c :: rest =>
      if (b64Index c).isSome then b64ValidFormat rest else b64PadTail (c :: rest)

/-- `str.encode('ascii')` succeeds: every character is ASCII. Non-ASCII input
makes `b64decode` raise before any decoding. -/
def asciiOnly (s : String) : Bool := s.data.all (fun c => c.toNat < 128)

/-- `base64.b64decode(s, validate=True)` on Python 3.11: ASCII check, the
well-formedness regex, then strict-mode `a2b_base64` (whose first strict
check rejects a leading padding character).  `none` models a raised
exception. -/
def b64decodeValidate (s : String) : Option (List Nat) :=
  if asciiOnly s ∧ b64ValidFormat s.data then
    if s.data.head? = some '=' then none
    else a2bBase64 true s.data 0 0 0 false []
  else none

/-- `base64.b64decode(s)` with default `validate=False` (the processing path):
no alphabet regex, non-strict decoding. -/
def b64decodeLenient (s : String) : Option (List Nat) :=
  if asciiOnly s then a2bBase64 false s.data 0 0 0 false [] else none

/-- `base64.b64encode`, producing the canonical encoding of a byte list. -/
def b64encode : List Nat → List Char
  | [] => []
  | [b1] => [b64Char (b1 / 4), b64Char (b1 % 4 * 16), '=', '=']
  | [b1, b2] =>
      [b64Char (b1 / 4), b64Char (b1 % 4 * 16 + b2 / 16), b64Char (b2 % 16 * 4), '=']
  | b1 :: b2 :: b3 :: rest =>
      b64Char (b1 / 4) :: b64Char (b1 % 4 * 16 + b2 / 16) ::
        b64Char (b2 % 16 * 4 + b3 / 64) :: b64Char (b3 % 64) :: b64encode rest

/-- `base64.b64encode(decoded).decode() == s`: the string is the canonical
base64 encoding of its own decoding (the Validator's per-file check). -/
def isCanonicalB64 (s : String) : Bool :=
  match b64decodeValidate s with
  | some d => String.mk (b64encode d) == s
  | none => false

/-- A file the Validator's loop passes over silently: `b64decode` succeeds
but re-encoding does not reproduce the string (line 115 comparison false,
no exception raised, loop continues). -/
def softFailB64 (s : String) : Bool :=
  (b64decodeValidate s).isSome && !(isCanonicalB64 s)

/-! ## Timestamp grammar

`re.fullmatch(r"^\d{4}-\d{2}-\d{2}T\d{2}:\d{2}:\d{2}(?:\.\d+)?Z$", t)`,
with `\d` modelled as the decimal digits `0`-`9`. -/

/-- Consume exactly `n` digit characters. -/
def takeDigits : Nat → List Char → Option (List Char)
  | 0, l => some l
  | n + 1, c :: rest => if c.isDigit then takeDigits n rest else none
  | _ + 1, [] => none

/-- Consume one expected literal character. -/
def expectChar (c : Char) : List Char → Option (List Char)
  | d :: rest => if d = c then some rest else none
  | [] => none

/-- Zero or more digits followed by a final literal `Z`. -/
def digitsThenZ : List Char → Bool
  | ['Z'] => true
  | c :: rest => c.isDigit && digitsThenZ rest
  | [] => false

/-- The tail `(?:\.\d+)?Z$`: either a literal `Z` ending the string, or a
dot, at least one digit, then a final `Z`. -/
def fractionTail : List Char → Bool
  | ['Z'] => true
  | '.' :: c :: rest => c.isDigit && digitsThenZ rest
  | _ => false

/-- Full match of the timestamp pattern (line 105). -/
def matchesTimestamp (s : String) : Bool :=
  match takeDigits 4 s.data >>= expectChar '-' >>= takeDigits 2 >>= expectChar '-' >>=
      takeDigits 2 >>= expectChar 'T' >>= takeDigits 2 >>= expectChar ':' >>=
      takeDigits 2 >>= expectChar ':' >>= takeDigits 2 with
  | some rest => fractionTail rest
  | none => false

/-! ## Data model -/

/-- Pydantic model `AudioFile`. -/
structure AudioFile where
  file_name : String
  encoded_audio : String
deriving DecidableEq, Repr

/-- Pydantic model `AudioPayload`. -/
structure AudioPayload where
  session_id : String
  timestamp : String
  audio_files : List AudioFile
deriving DecidableEq, Repr

/-- One row of the `audio_metadata` table (surrogate `id` omitted: it is
engine-assigned and rows are modelled positionally in an append-only list). -/
structure MetadataRecord where
  session_id : String
  timestamp : String
  file_name : String
  length_seconds : ℚ
deriving DecidableEq, Repr

/-- One entry of the response's `processed_files` list. -/
structure ProcessedFile where
  file_name : String
  length_seconds : ℚ
deriving DecidableEq, Repr

/-- Outcome of a validator call: `ok` models `return True`, `falsy` models
falling off the end of `validate_audio_file` (Python returns `None`),
`err d` models a raised `ExceptionCustom(status_code=400, detail=d)`. -/
inductive VResult where
  | ok : VResult
  | falsy : VResult
  | err : String → VResult
deriving DecidableEq, Repr

/-- Response of the `/process-audio` endpoint: `reject d` is the HTTP 400
response carrying `detail = d` from a raised `ExceptionCustom`; `errorBody m`
is the HTTP 200 body `{"status": "error", "message": m}`; `success l` is the
HTTP 200 body `{"status": "success", "processed_files": l}`. -/
inductive Response where
  | reject : String → Response
  | errorBody : String → Response
  | success : List ProcessedFile → Response
deriving DecidableEq, Repr

/-! ## Validator (`main.py` lines 98-137) -/

/-- Line 98: non-emptiness check; raises "No audio files provided!". -/
def validate_audio_files_present (audio_files : List AudioFile) : VResult :=
  if audio_files.isEmpty then .err "No audio files provided!" else .ok

/-- Line 104: timestamp grammar check; raises "Invalid timestamp format!". -/
def validate_timestamp (timestamp : String) : VResult :=
  if matchesTimestamp timestamp then .ok else .err "Invalid timestamp format!"

/-- Lines 111-119: scan files in order; a file whose `b64decode` raises
aborts with "Invalid base64 encoding file!"; a file whose decoding
re-encodes to itself returns `True` immediately (remaining files are not
examined); a file that decodes but mismatches is passed over; exhausting
the list returns Python `None` (`falsy`). -/
def validate_audio_file : List AudioFile → VResult
  | [] => .falsy
  | f :: rest =>
      match b64decodeValidate f.encoded_audio with
      | none => .err "Invalid base64 encoding file!"
      | some decoded =>
          if String.mk (b64encode decoded) = f.encoded_audio then .ok
          else validate_audio_file rest

/-- Lines 122-137: `A and B and C` where `A`, `B` raise or return `True` and
`C` raises, returns `True`, or returns `None`; the surrounding `if` turns a
falsy conjunction into `return False`. -/
def validate_payload (payload : AudioPayload) : VResult :=
  match validate_audio_files_present payload.audio_files with
  | .err d => .err d
  | _ =>
      match validate_timestamp payload.timestamp with
      | .err d => .err d
      | _ => validate_audio_file payload.audio_files

/-! ## AudioDecoder and MetadataStore -/

/-- Line 69: `len(audio_array) / sample_rate`, over exact rationals. -/
def calculate_audio_length (numSamples : Nat) (sample_rate : Nat) : ℚ :=
  (numSamples : ℚ) / (sample_rate : ℚ)

/-- Lines 162: `np.frombuffer(base64.b64decode(encoded), dtype=np.int16)`,
reduced to the sample count (sample values do not affect the pipeline).
`np.frombuffer` raises `ValueError` when the buffer size is not a multiple
of the 2-byte element size; otherwise the array has `len/2` elements. -/
def decodeAudio (encoded_audio : String) : Option Nat :=
  match b64decodeLenient encoded_audio with
  | none => none
  | some bytes => if bytes.length % 2 = 0 then some (bytes.length / 2) else none

/-- Lines 72-95: INSERT one row, or raise `HTTPException(500)` on a storage
error.  The storage outcome is environmental; the caller passes it in as
`ok`. `none` models the raised exception. -/
def store_audio_metadata (ok : Bool) (db : List MetadataRecord)
    (session_id timestamp file_name : String) (length_seconds : ℚ) :
    Option (List MetadataRecord) :=
  if ok then some (db ++ [⟨session_id, timestamp, file_name, length_seconds⟩])
  else none

/-! ## Rounding

Python `round(x, 2)`: round half to even at two decimal places, modelled
over exact rationals. -/

/-- Round to the nearest integer, ties to even. -/
def roundHalfEven (q : ℚ) : ℤ :=
  if q - q.floor < 1 / 2 then q.floor
  else if 1 / 2 < q - q.floor then q.floor + 1
  else if q.floor % 2 = 0 then q.floor else q.floor + 1

/-- `round(q, 2)`. -/
def round2 (q : ℚ) : ℚ := (roundHalfEven (q * 100) : ℚ) / 100

/-! ## Orchestrator (`main.py` lines 140-181)

The per-file loop of `process_audio`, with the file's position in the batch
paired in so the storage oracle `env` can be consulted per file.  Any
exception inside the `try` block (decode failure, `np.frombuffer` failure,
storage failure) skips the file and continues. -/

/-- Lines 160-176: the per-file loop. Returns the `processed_files` list and
the final database state. -/
def processFiles (env : Nat → Bool) (session_id timestamp : String) :
    List (Nat × AudioFile) → List MetadataRecord →
    List ProcessedFile × List MetadataRecord
  | [], db => ([], db)
  | (i, f) :: rest, db =>
      match decodeAudio f.encoded_audio with
      | none => processFiles env session_id timestamp rest db
      | some n =>
          let length_seconds := calculate_audio_length n 4000
          match store_audio_metadata (env i) db session_id timestamp
              f.file_name length_seconds with
          | none => processFiles env session_id timestamp rest db
          | some db1 =>
              let r := processFiles env session_id timestamp rest db1
              (⟨f.file_name, round2 length_seconds⟩ :: r.1, r.2)

/-- Lines 140-181: the endpoint. Validation failure by exception yields the
HTTP 400 rejection; falsy validation yields the generic error body; on
success the per-file loop runs over the files in input order. -/
def process_audio (env : Nat → Bool) (payload : AudioPayload)
    (db : List MetadataRecord) : Response × List MetadataRecord :=
  match validate_payload payload with
  | .err d => (.reject d, db)
  | .falsy => (.errorBody "Invalid audio file metadata or payload.", db)
  | .ok =>
      let r := processFiles env payload.session_id payload.timestamp
        payload.audio_files.enum db
      (.success r.1, r.2)

/-- The records a request appends: the database delta of running the
request against an empty table. -/
def newRecords (env : Nat → Bool) (payload : AudioPayload) :
    List MetadataRecord :=
  (process_audio env payload []).2

/-- The `processed_files` entry contributed by the file at position `i`, if
any: the file must decode and its store call must succeed. -/
def respEntry (env : Nat → Bool) (p : Nat × AudioFile) : Option ProcessedFile :=
  match decodeAudio p.2.encoded_audio with
  | none => none
  | some n =>
      if env p.1 then some ⟨p.2.file_name, round2 (calculate_audio_length n 4000)⟩
      else none

/-- The database record contributed by the file at position `i`, if any. -/
def dbEntry (env : Nat → Bool) (session_id timestamp : String)
    (p : Nat × AudioFile) : Option MetadataRecord :=
  match decodeAudio p.2.encoded_audio with
  | none => none
  | some n =>
      if env p.1 then
        some ⟨session_id, timestamp, p.2.file_name, calculate_audio_length n 4000⟩
      else none

/-! ## Concrete sample data for witnesses and counterexamples -/

/-- A timestamp accepted by the grammar. -/
def tsOK : String := "2025-01-02T12:00:00Z"

/-- A timestamp missing the trailing `Z`. -/
def tsBad : String := "2025-01-02T12:00:00"

/-- Canonical base64 of the single byte `0x00`. -/
def fileCanonical : AudioFile := ⟨"a.wav", "AA=="⟩

/-- Not base64 at all: `b64decode` raises on it. -/
def fileGarbage : AudioFile := ⟨"b.wav", "!"⟩

/-- Decodes (to the byte `0x00`) but re-encodes to `"AA=="`, not itself. -/
def fileMismatch : AudioFile := ⟨"c.wav", "AB=="⟩

/-- Canonical base64 of the two bytes `0x00 0x00`: one int16 sample. -/
def fileTwoBytes : AudioFile := ⟨"d.wav", "AAA="⟩

/-- Empty payload: decodes to zero bytes, canonically. -/
def fileEmptyAudio : AudioFile := ⟨"e.wav", ""⟩

/-- Storage environment in which every store call succeeds. -/
def envAll : Nat → Bool := fun _ => true

/-- The Validator's scan (lines 112-116) reaches a file whose string is
canonical base64, every earlier file having decoded with a re-encode
mismatch. -/
def scanHitsCanonical (files : List AudioFile) : Prop :=
  ∃ i f, files.get? i = some f ∧ isCanonicalB64 f.encoded_audio = true ∧
    ∀ j g, j < i → files.get? j = some g → softFailB64 g.encoded_audio = true

/-- The Validator's scan reaches a file on which `b64decode` raises, every
earlier file having decoded with a re-encode mismatch. -/
def scanHitsInvalid (files : List AudioFile) : Prop :=
  ∃ i f, files.get? i = some f ∧ b64decodeValidate f.encoded_audio = none ∧
    ∀ j g, j < i → files.get? j = some g → softFailB64 g.encoded_audio = true

/-! ## Helper lemmas -/

theorem processFiles_eq (env : Nat → Bool) (sid ts : String) :
    ∀ (l : List (Nat × AudioFile)) (db : List MetadataRecord),
      processFiles env sid ts l db =
        (l.filterMap (respEntry env), db ++ l.filterMap (dbEntry env sid ts)) := by
  intro l
  induction l with
  | nil => intro db; simp [processFiles]
  | cons hd tl ih =>
    intro db
    obtain ⟨i, f⟩ := hd
    cases hdec : decodeAudio f.encoded_audio with
    | none =>
      simp [processFiles, hdec, respEntry, dbEntry, List.filterMap_cons, ih]
    | some n =>
      cases henv : env i with
      | false =>
        simp [processFiles, hdec, henv, respEntry, dbEntry,
          store_audio_metadata, List.filterMap_cons, ih]
      | true =>
        simp [processFiles, hdec, henv, respEntry, dbEntry,
          store_audio_metadata, List.filterMap_cons, ih]

theorem validate_audio_file_cons_err (x : AudioFile) (rest : List AudioFile)
    (hdec : b64decodeValidate x.encoded_audio = none) :
    validate_audio_file (x :: rest) = .err "Invalid base64 encoding file!" := by
  unfold validate_audio_file
  rw [hdec]

theorem validate_audio_file_cons_can (x : AudioFile) (rest : List AudioFile)
    (dd : List Nat) (hdec : b64decodeValidate x.encoded_audio = some dd)
    (hc : String.mk (b64encode dd) = x.encoded_audio) :
    validate_audio_file (x :: rest) = .ok := by
  unfold validate_audio_file
  rw [hdec]
  show (if String.mk (b64encode dd) = x.encoded_audio then VResult.ok
    else validate_audio_file rest) = VResult.ok
  rw [if_pos hc]

theorem validate_audio_file_cons (x : AudioFile) (rest : List AudioFile) :
    validate_audio_file (x :: rest) =
      match b64decodeValidate x.encoded_audio with
      | none => VResult.err "Invalid base64 encoding file!"
      | some decoded =>
          if String.mk (b64encode decoded) = x.encoded_audio then VResult.ok
          else validate_audio_file rest := rfl

theorem validate_audio_file_cons_soft (x : AudioFile) (rest : List AudioFile)
    (dd : List Nat) (hdec : b64decodeValidate x.encoded_audio = some dd)
    (hc : ¬ String.mk (b64encode dd) = x.encoded_audio) :
    validate_audio_file (x :: rest) = validate_audio_file rest := by
  rw [validate_audio_file_cons, hdec]
  show (if String.mk (b64encode dd) = x.encoded_audio then VResult.ok
    else validate_audio_file rest) = validate_audio_file rest
  rw [if_neg hc]

theorem validate_audio_file_err_detail :
    ∀ (files : List AudioFile) (d : String),
      validate_audio_file files = .err d → d = "Invalid base64 encoding file!" := by
  intro files
  induction files with
  | nil => intro d h; simp [validate_audio_file] at h
  | cons x rest ih =>
    intro d h
    cases hdec : b64decodeValidate x.encoded_audio with
    | none =>
      rw [validate_audio_file_cons_err x rest hdec] at h
      exact (VResult.err.inj h).symm
    | some dd =>
      by_cases hc : String.mk (b64encode dd) = x.encoded_audio
      · rw [validate_audio_file_cons_can x rest dd hdec hc] at h
        exact absurd h (by simp)
      · rw [validate_audio_file_cons_soft x rest dd hdec hc] at h
        exact ih d h

theorem validate_audio_file_ok_iff :
    ∀ files : List AudioFile,
      validate_audio_file files = .ok ↔ scanHitsCanonical files := by
  intro files
  induction files with
  | nil =>
    simp only [validate_audio_file, scanHitsCanonical]
    constructor
    · intro h; exact absurd h (by simp)
    · rintro ⟨i, f, hget, -, -⟩; simp at hget
  | cons x rest ih =>
    constructor
    · intro h
      cases hdec : b64decodeValidate x.encoded_audio with
      | none =>
        rw [validate_audio_file_cons_err x rest hdec] at h
        exact absurd h (by simp)
      | some dd =>
        by_cases hc : String.mk (b64encode dd) = x.encoded_audio
        · refine ⟨0, x, rfl, ?_, ?_⟩
          · simp [isCanonicalB64, hdec, hc]
          · intro j g hj hget; omega
        · rw [validate_audio_file_cons_soft x rest dd hdec hc] at h
          obtain ⟨i, f, h1, h2, h3⟩ := ih.mp h
          refine ⟨i + 1, f, h1, h2, ?_⟩
          intro j g hj hget
          cases j with
          | zero =>
            cases hget
            simp [softFailB64, isCanonicalB64, hdec, hc]
          | succ k => exact h3 k g (by omega) hget
    · rintro ⟨i, f, h1, h2, h3⟩
      cases hdec : b64decodeValidate x.encoded_audio with
      | none =>
        exfalso
        cases i with
        | zero =>
          cases h1
          simp [isCanonicalB64, hdec] at h2
        | succ k =>
          have hx := h3 0 x (Nat.succ_pos k) rfl
          simp [softFailB64, hdec] at hx
      | some dd =>
        by_cases hc : String.mk (b64encode dd) = x.encoded_audio
        · exact validate_audio_file_cons_can x rest dd hdec hc
        · rw [validate_audio_file_cons_soft x rest dd hdec hc]
          apply ih.mpr
          cases i with
          | zero =>
            cases h1
            exfalso
            simp [isCanonicalB64, hdec, hc] at h2
          | succ k =>
            exact ⟨k, f, h1, h2, fun j g hj hget => h3 (j + 1) g (by omega) hget⟩

theorem validate_audio_file_rejects_iff :
    ∀ files : List AudioFile,
      validate_audio_file files = .err "Invalid base64 encoding file!" ↔
        scanHitsInvalid files := by
  intro files
  induction files with
  | nil =>
    simp only [validate_audio_file, scanHitsInvalid]
    constructor
    · intro h; exact absurd h (by simp)
    · rintro ⟨i, f, hget, -, -⟩; simp at hget
  | cons x rest ih =>
    constructor
    · intro h
      cases hdec : b64decodeValidate x.encoded_audio with
      | none =>
        refine ⟨0, x, rfl, hdec, ?_⟩
        intro j g hj hget; omega
      | some dd =>
        by_cases hc : String.mk (b64encode dd) = x.encoded_audio
        · rw [validate_audio_file_cons_can x rest dd hdec hc] at h
          exact absurd h (by simp)
        · rw [validate_audio_file_cons_soft x rest dd hdec hc] at h
          obtain ⟨i, f, h1, h2, h3⟩ := ih.mp h
          refine ⟨i + 1, f, h1, h2, ?_⟩
          intro j g hj hget
          cases j with
          | zero =>
            cases hget
            simp [softFailB64, isCanonicalB64, hdec, hc]
          | succ k => exact h3 k g (by omega) hget
    · rintro ⟨i, f, h1, h2, h3⟩
      cases hdec : b64decodeValidate x.encoded_audio with
      | none => exact validate_audio_file_cons_err x rest hdec
      | some dd =>
        by_cases hc : String.mk (b64encode dd) = x.encoded_audio
        · exfalso
          cases i with
          | zero =>
            cases h1
            rw [hdec] at h2
            exact absurd h2 (by simp)
          | succ k =>
            have hx := h3 0 x (Nat.succ_pos k) rfl
            simp [softFailB64, isCanonicalB64, hdec, hc] at hx
        · rw [validate_audio_file_cons_soft x rest dd hdec hc]
          apply ih.mpr
          cases i with
          | zero =>
            cases h1
            rw [hdec] at h2
            exact absurd h2 (by simp)
          | succ k =>
            exact ⟨k, f, h1, h2, fun j g hj hget => h3 (j + 1) g (by omega) hget⟩

theorem validate_payload_reduce (p : AudioPayload)
    (hne : p.audio_files ≠ []) (hts : matchesTimestamp p.timestamp = true) :
    validate_payload p = validate_audio_file p.audio_files := by
  have h1 : p.audio_files.isEmpty = false := by
    cases hfiles : p.audio_files with
    | nil => exact absurd hfiles hne
    | cons a l => rfl
  simp [validate_payload, validate_audio_files_present, validate_timestamp, h1, hts]

theorem validate_payload_err_detail (p : AudioPayload) (d : String)
    (h : validate_payload p = .err d) :
    d = "No audio files provided!" ∨ d = "Invalid timestamp format!" ∨
      d = "Invalid base64 encoding file!" := by
  by_cases h1 : p.audio_files.isEmpty = true
  · simp only [validate_payload, validate_audio_files_present, h1, if_true] at h
    left
    exact (VResult.err.inj h).symm
  · have h1f : p.audio_files.isEmpty = false := by simpa using h1
    by_cases h2 : matchesTimestamp p.timestamp = true
    · simp only [validate_payload, validate_audio_files_present, validate_timestamp,
        h1f, h2, Bool.false_eq_true, if_false, if_true] at h
      right; right
      exact validate_audio_file_err_detail p.audio_files d h
    · have h2f : matchesTimestamp p.timestamp = false := by simpa using h2
      simp only [validate_payload, validate_audio_files_present, validate_timestamp,
        h1f, h2f, Bool.false_eq_true, if_false] at h
      right; left
      exact (VResult.err.inj h).symm

theorem process_audio_ok (env : Nat → Bool) (p : AudioPayload)
    (db : List MetadataRecord) (h : validate_payload p = .ok) :
    process_audio env p db =
      (.success (p.audio_files.enum.filterMap (respEntry env)),
        db ++ p.audio_files.enum.filterMap (dbEntry env p.session_id p.timestamp)) := by
  simp only [process_audio, h, processFiles_eq]

theorem process_audio_err (env : Nat → Bool) (p : AudioPayload)
    (db : List MetadataRecord) (d : String) (h : validate_payload p = .err d) :
    process_audio env p db = (.reject d, db) := by
  simp only [process_audio, h]

theorem process_audio_falsy (env : Nat → Bool) (p : AudioPayload)
    (db : List MetadataRecord) (h : validate_payload p = .falsy) :
    process_audio env p db =
      (.errorBody "Invalid audio file metadata or payload.", db) := by
  simp only [process_audio, h]

theorem get?_mem_enumFrom :
    ∀ (l : List AudioFile) (k i : Nat) (f : AudioFile),
      l.get? i = some f → (k + i, f) ∈ l.enumFrom k := by
  intro l
  induction l with
  | nil => intro k i f h; simp at h
  | cons x rest ih =>
    intro k i f h
    cases i with
    | zero =>
      cases h
      exact List.mem_cons_self _ _
    | succ j =>
      have hmem := ih (k + 1) j f h
      have heq : k + (j + 1) = k + 1 + j := by omega
      rw [heq]
      exact List.mem_cons_of_mem _ hmem

theorem get?_mem_enum (l : List AudioFile) (i : Nat) (f : AudioFile)
    (h : l.get? i = some f) : (i, f) ∈ l.enum := by
  have hmem := get?_mem_enumFrom l 0 i f h
  simpa using hmem

theorem snd_mem_of_mem_enumFrom :
    ∀ (l : List AudioFile) (k : Nat) (x : Nat × AudioFile),
      x ∈ l.enumFrom k → x.2 ∈ l := by
  intro l
  induction l with
  | nil => intro k x h; simp [List.enumFrom] at h
  | cons a rest ih =>
    intro k x h
    rcases List.mem_cons.mp h with h | h
    · subst h; exact List.mem_cons_self _ _
    · exact List.mem_cons_of_mem _ (ih (k + 1) x h)

theorem filterMap_resp_db_length (env : Nat → Bool) (sid ts : String) :
    ∀ l : List (Nat × AudioFile),
      (l.filterMap (respEntry env)).length =
        (l.filterMap (dbEntry env sid ts)).length := by
  intro l
  induction l with
  | nil => rfl
  | cons hd tl ih =>
    obtain ⟨i, f⟩ := hd
    cases hdec : decodeAudio f.encoded_audio with
    | none => simp [List.filterMap_cons, respEntry, dbEntry, hdec, ih]
    | some n =>
      cases henv : env i with
      | false => simp [List.filterMap_cons, respEntry, dbEntry, hdec, henv, ih]
      | true => simp [List.filterMap_cons, respEntry, dbEntry, hdec, henv, ih]

theorem process_audio_snd (env : Nat → Bool) (p : AudioPayload)
    (db : List MetadataRecord) :
    (process_audio env p db).2 = db ++ newRecords env p := by
  unfold newRecords
  cases hv : validate_payload p with
  | ok => rw [process_audio_ok env p db hv, process_audio_ok env p [] hv]; simp
  | falsy => rw [process_audio_falsy env p db hv, process_audio_falsy env p [] hv]; simp
  | err d => rw [process_audio_err env p db d hv, process_audio_err env p [] d hv]; simp

theorem rat_floor_eq_int_floor (q : ℚ) : (Rat.floor q : ℤ) = ⌊q⌋ := by
  rw [Rat.floor_def', Rat.floor_def]

theorem roundHalfEven_def (q : ℚ) :
    roundHalfEven q =
      if q - ⌊q⌋ < 1 / 2 then ⌊q⌋
      else if 1 / 2 < q - ⌊q⌋ then ⌊q⌋ + 1
      else if ⌊q⌋ % 2 = 0 then ⌊q⌋ else ⌊q⌋ + 1 := by
  rw [roundHalfEven, rat_floor_eq_int_floor]

theorem round2_zero : round2 0 = 0 := by
  rw [round2, roundHalfEven_def]
  norm_num

/-! ## Claims -/

/-- C7: a batch with an empty `audio_files` list is rejected with detail
"No audio files provided!", whatever the `session_id`, `timestamp`, storage
environment and database state: the presence check runs first, so neither
the timestamp check, the base64 check, decoding nor storage is reached, and
the database is returned unchanged. -/
theorem c7_empty_batch_rejected (env : Nat → Bool) (p : AudioPayload)
    (db : List MetadataRecord) (h : p.audio_files = []) :
    process_audio env p db = (.reject "No audio files provided!", db) := by
  have hv : validate_payload p = .err "No audio files provided!" := by
    simp [validate_payload, validate_audio_files_present, h]
  exact process_audio_err env p db _ hv

theorem c7_empty_batch_rejected_witness :
    process_audio envAll (AudioPayload.mk "any-session" "not-even-a-timestamp" [])
        [] =
      (.reject "No audio files provided!", []) :=
  c7_empty_batch_rejected envAll
    (AudioPayload.mk "any-session" "not-even-a-timestamp" []) [] rfl

/-- C6: a non-empty batch whose timestamp does not match
`^\d{4}-\d{2}-\d{2}T\d{2}:\d{2}:\d{2}(\.\d+)?Z$` is rejected with detail
"Invalid timestamp format!", whatever the files contain and whatever the
storage environment and database state. -/
theorem c6_bad_timestamp_rejected (env : Nat → Bool) (p : AudioPayload)
    (db : List MetadataRecord) (h1 : matchesTimestamp p.timestamp = false)
    (h2 : p.audio_files ≠ []) :
    process_audio env p db = (.reject "Invalid timestamp format!", db) := by
  have hne : p.audio_files.isEmpty = false := by
    cases hf : p.audio_files with
    | nil => exact absurd hf h2
    | cons a l => rfl
  have hv : validate_payload p = .err "Invalid timestamp format!" := by
    simp [validate_payload, validate_audio_files_present, validate_timestamp,
      hne, h1]
  exact process_audio_err env p db _ hv

theorem c6_bad_timestamp_rejected_witness :
    process_audio envAll (AudioPayload.mk "s" tsBad [fileCanonical]) [] =
      (.reject "Invalid timestamp format!", []) :=
  c6_bad_timestamp_rejected envAll (AudioPayload.mk "s" tsBad [fileCanonical])
    [] (by decide) (by decide)

/-- C9: a request that fails validation (whether by a raised 400 or by the
falsy fall-through of `validate_audio_file`) leaves the stored table exactly
as it was: no record is persisted. -/
theorem c9_rejected_batch_stores_nothing (env : Nat → Bool) (p : AudioPayload)
    (db : List MetadataRecord) (h : validate_payload p ≠ .ok) :
    (process_audio env p db).2 = db := by
  cases hv : validate_payload p with
  | ok => exact absurd hv h
  | falsy => rw [process_audio_falsy env p db hv]
  | err d => rw [process_audio_err env p db d hv]

theorem c9_rejected_batch_stores_nothing_witness :
    (process_audio envAll (AudioPayload.mk "s" tsBad [fileCanonical])
        [MetadataRecord.mk "old" "t" "f" 1]).2 =
      [MetadataRecord.mk "old" "t" "f" 1] :=
  c9_rejected_batch_stores_nothing envAll
    (AudioPayload.mk "s" tsBad [fileCanonical])
    [MetadataRecord.mk "old" "t" "f" 1] (by decide)

/-- C1 (counterexample): the claim says validation succeeds only if every
file's `encoded_audio` is canonical base64, and that any failing file
triggers the "Invalid base64 encoding file!" rejection.  In the code,
`validate_audio_file` returns `True` as soon as ONE file passes the
canonical check: this batch passes presence and timestamp checks, its first
file is canonical, its second file is not even valid base64
(`b64decode` would raise on it), yet validation reports the batch valid and
the request is never rejected. -/
theorem c1_claim_counterexample :
    validate_payload (AudioPayload.mk "s" tsOK [fileCanonical, fileGarbage]) =
      .ok ∧
    b64decodeValidate fileGarbage.encoded_audio = none ∧
    (process_audio envAll
        (AudioPayload.mk "s" tsOK [fileCanonical, fileGarbage]) []).1 ≠
      .reject "Invalid base64 encoding file!" :=
  ⟨by decide, by decide, by decide⟩

/-- C1 (amended): for a batch that passes the presence and timestamp
checks, validation scans the files in order and succeeds as soon as it
reaches a file whose `encoded_audio` is canonical base64 (later files are
not examined); it rejects with "Invalid base64 encoding file!" exactly when
it reaches a file on which `b64decode` raises before any canonical file;
files that decode but re-encode differently are passed over silently. -/
theorem c1_base64_scan_first_success (p : AudioPayload)
    (hne : p.audio_files ≠ []) (hts : matchesTimestamp p.timestamp = true) :
    (validate_payload p = .ok ↔ scanHitsCanonical p.audio_files) ∧
    (validate_payload p = .err "Invalid base64 encoding file!" ↔
      scanHitsInvalid p.audio_files) := by
  rw [validate_payload_reduce p hne hts]
  exact ⟨validate_audio_file_ok_iff p.audio_files,
    validate_audio_file_rejects_iff p.audio_files⟩

theorem c1_base64_scan_first_success_witness :
    (validate_payload (AudioPayload.mk "s" tsOK [fileMismatch, fileCanonical]) =
        .ok ↔ scanHitsCanonical [fileMismatch, fileCanonical]) ∧
    (validate_payload (AudioPayload.mk "s" tsOK [fileMismatch, fileCanonical]) =
        .err "Invalid base64 encoding file!" ↔
      scanHitsInvalid [fileMismatch, fileCanonical]) :=
  c1_base64_scan_first_success
    (AudioPayload.mk "s" tsOK [fileMismatch, fileCanonical])
    (by decide) (by decide)

/-- C2 (counterexample): the claim says every validation failure is an
HTTP 400 whose detail is one of the three fixed reasons.  A batch whose
single file decodes but is not canonical ("AB==" re-encodes to "AA==")
makes `validate_audio_file` fall off its loop and return `None`: the
payload fails validation, yet the endpoint answers HTTP 200 with
`{"status": "error", "message": "Invalid audio file metadata or payload."}`
instead of any 400 rejection. -/
theorem c2_claim_counterexample :
    validate_payload (AudioPayload.mk "s" tsOK [fileMismatch]) ≠ .ok ∧
    softFailB64 fileMismatch.encoded_audio = true ∧
    process_audio envAll (AudioPayload.mk "s" tsOK [fileMismatch]) [] =
      (.errorBody "Invalid audio file metadata or payload.", []) :=
  ⟨by decide, by decide, by decide⟩

/-- C2 (amended): a batch that fails validation produces either an HTTP 400
rejection whose detail is one of the three fixed reasons of §4.1, or — when
every file decodes but fails the canonical re-encode comparison, so that
`validate_audio_file` returns `None` — the HTTP 200 error body
`{"status": "error", "message": "Invalid audio file metadata or payload."}`;
no other validation-failure response exists. -/
theorem c2_validation_failure_responses (env : Nat → Bool) (p : AudioPayload)
    (db : List MetadataRecord) (h : validate_payload p ≠ .ok) :
    (∃ d, (process_audio env p db).1 = .reject d ∧
        (d = "No audio files provided!" ∨ d = "Invalid timestamp format!" ∨
          d = "Invalid base64 encoding file!")) ∨
      (process_audio env p db).1 =
        .errorBody "Invalid audio file metadata or payload." := by
  cases hv : validate_payload p with
  | ok => exact absurd hv h
  | falsy =>
      right
      rw [process_audio_falsy env p db hv]
  | err d =>
      left
      exact ⟨d, by rw [process_audio_err env p db d hv],
        validate_payload_err_detail p d hv⟩

theorem c2_validation_failure_responses_witness :
    (∃ d, (process_audio envAll (AudioPayload.mk "s" tsBad [fileCanonical])
          []).1 = .reject d ∧
        (d = "No audio files provided!" ∨ d = "Invalid timestamp format!" ∨
          d = "Invalid base64 encoding file!")) ∨
      (process_audio envAll (AudioPayload.mk "s" tsBad [fileCanonical]) []).1 =
        .errorBody "Invalid audio file metadata or payload." :=
  c2_validation_failure_responses envAll
    (AudioPayload.mk "s" tsBad [fileCanonical]) [] (by decide)

/-- C3: for a batch that passes validation, the response is always
`{"status": "success", "processed_files": [...]}`: the files are walked in
input order, a file whose decode or store step fails contributes nothing
(it is skipped and processing continues), and each successfully processed
file contributes exactly one entry; an empty list is a valid success
response, and the body carries no per-file error. -/
theorem c3_fail_soft_per_file (env : Nat → Bool) (p : AudioPayload)
    (db : List MetadataRecord) (h : validate_payload p = .ok) :
    (process_audio env p db).1 =
      .success (p.audio_files.enum.filterMap (respEntry env)) := by
  rw [process_audio_ok env p db h]

theorem c3_fail_soft_per_file_witness :
    (process_audio envAll
        (AudioPayload.mk "s" tsOK [fileTwoBytes, fileCanonical]) []).1 =
      .success (([fileTwoBytes, fileCanonical] : List AudioFile).enum.filterMap
        (respEntry envAll)) :=
  c3_fail_soft_per_file envAll
    (AudioPayload.mk "s" tsOK [fileTwoBytes, fileCanonical]) [] (by decide)

/-- C4 (counterexample): the claim says a file whose decoded payload has
odd byte length is truncated to whole 16-bit samples and processed.  In the
code `np.frombuffer` raises `ValueError` on a buffer that is not a multiple
of 2 bytes: `"AA=="` is canonical base64 of the single byte `0x00`, the
batch passes validation, yet the file is skipped — the response is
`success []` and nothing is persisted, instead of a processed file of
duration `0/4000`. -/
theorem c4_claim_counterexample :
    b64decodeLenient "AA==" = some [0] ∧
    decodeAudio "AA==" = none ∧
    process_audio envAll
        (AudioPayload.mk "s" tsOK [AudioFile.mk "odd.wav" "AA=="]) [] =
      (.success [], []) :=
  ⟨by decide, by decide, by decide⟩

/-- C4 (amended): a file whose decoded byte payload has odd length is a
decode failure (`np.frombuffer` requires the buffer size to be a multiple
of the 2-byte element size): the file contributes neither a response entry
nor a stored record, and processing continues with the rest of the batch
unchanged. -/
theorem c4_odd_payload_is_skipped (s : String) (bytes : List Nat)
    (env : Nat → Bool) (sid ts fn : String) (i : Nat)
    (rest : List (Nat × AudioFile)) (db : List MetadataRecord)
    (h1 : b64decodeLenient s = some bytes) (h2 : bytes.length % 2 = 1) :
    decodeAudio s = none ∧
    processFiles env sid ts ((i, AudioFile.mk fn s) :: rest) db =
      processFiles env sid ts rest db := by
  have hmod : bytes.length % 2 ≠ 0 := by omega
  have hd : decodeAudio s = none := by
    unfold decodeAudio
    rw [h1]
    simp [hmod]
  refine ⟨hd, ?_⟩
  rw [processFiles_eq, processFiles_eq]
  simp [List.filterMap_cons, respEntry, dbEntry, hd]

theorem c4_odd_payload_is_skipped_witness :
    decodeAudio "AA==" = none ∧
    processFiles envAll "s" tsOK ((0, AudioFile.mk "odd.wav" "AA==") :: []) [] =
      processFiles envAll "s" tsOK [] [] :=
  c4_odd_payload_is_skipped "AA==" [0] envAll "s" tsOK "odd.wav" 0 [] []
    (by decide) (by decide)

/-- C5: a file at position `i` of a validated batch whose payload decodes
to `n` int16 samples, and whose store call succeeds, is persisted with
`length_seconds` exactly `n / 4000` (the unrounded rational), while the
response's `processed_files` entry for it carries that value rounded to two
decimal places (round half to even, Python `round(x, 2)`). -/
theorem c5_exact_stored_rounded_reported (env : Nat → Bool)
    (p : AudioPayload) (db : List MetadataRecord) (i : Nat) (f : AudioFile)
    (n : Nat) (hok : validate_payload p = .ok)
    (hget : p.audio_files.get? i = some f)
    (hdec : decodeAudio f.encoded_audio = some n)
    (henv : env i = true) :
    calculate_audio_length n 4000 = (n : ℚ) / 4000 ∧
    MetadataRecord.mk p.session_id p.timestamp f.file_name ((n : ℚ) / 4000) ∈
      (process_audio env p db).2 ∧
    ∃ pf, (process_audio env p db).1 = .success pf ∧
      ProcessedFile.mk f.file_name (round2 ((n : ℚ) / 4000)) ∈ pf := by
  have henum := get?_mem_enum p.audio_files i f hget
  refine ⟨rfl, ?_, ?_⟩
  · rw [process_audio_ok env p db hok]
    apply List.mem_append_right
    apply List.mem_filterMap.mpr
    refine ⟨(i, f), henum, ?_⟩
    simp [dbEntry, hdec, henv, calculate_audio_length]
  · refine ⟨p.audio_files.enum.filterMap (respEntry env),
      by rw [process_audio_ok env p db hok], ?_⟩
    apply List.mem_filterMap.mpr
    refine ⟨(i, f), henum, ?_⟩
    simp [respEntry, hdec, henv, calculate_audio_length]

theorem c5_exact_stored_rounded_reported_witness :
    calculate_audio_length 1 4000 = ((1 : Nat) : ℚ) / 4000 ∧
    MetadataRecord.mk "s" tsOK "d.wav" (((1 : Nat) : ℚ) / 4000) ∈
      (process_audio envAll (AudioPayload.mk "s" tsOK [fileTwoBytes]) []).2 ∧
    ∃ pf, (process_audio envAll
        (AudioPayload.mk "s" tsOK [fileTwoBytes]) []).1 = .success pf ∧
      ProcessedFile.mk "d.wav" (round2 (((1 : Nat) : ℚ) / 4000)) ∈ pf :=
  c5_exact_stored_rounded_reported envAll
    (AudioPayload.mk "s" tsOK [fileTwoBytes]) [] 0 fileTwoBytes 1
    (by decide) rfl (by decide) rfl

/-- C8: a file whose `encoded_audio` decodes to the empty byte sequence is
not a decode error: `np.frombuffer` yields zero samples, the duration is
`0/4000 = 0.0`, a record with `length_seconds = 0` is persisted (when the
store call succeeds), and the response entry reports `0.0`. -/
theorem c8_zero_length_payload_processed (env : Nat → Bool)
    (sid ts fn s : String) (i : Nat) (rest : List (Nat × AudioFile))
    (db : List MetadataRecord)
    (h : b64decodeLenient s = some []) (henv : env i = true) :
    decodeAudio s = some 0 ∧
    calculate_audio_length 0 4000 = 0 ∧
    round2 0 = 0 ∧
    processFiles env sid ts ((i, AudioFile.mk fn s) :: rest) db =
      (ProcessedFile.mk fn 0 ::
        (processFiles env sid ts rest
          (db ++ [MetadataRecord.mk sid ts fn 0])).1,
        (processFiles env sid ts rest
          (db ++ [MetadataRecord.mk sid ts fn 0])).2) := by
  have hd : decodeAudio s = some 0 := by
    unfold decodeAudio
    rw [h]
    simp
  have hcalc : calculate_audio_length 0 4000 = 0 := by
    simp [calculate_audio_length]
  refine ⟨hd, hcalc, round2_zero, ?_⟩
  rw [processFiles_eq, processFiles_eq]
  simp [List.filterMap_cons, respEntry, dbEntry, hd, henv, hcalc, round2_zero]

theorem c8_zero_length_payload_processed_witness :
    decodeAudio "" = some 0 ∧
    calculate_audio_length 0 4000 = 0 ∧
    round2 0 = 0 ∧
    processFiles envAll "s" tsOK ((0, AudioFile.mk "e.wav" "") :: []) [] =
      (ProcessedFile.mk "e.wav" 0 ::
        (processFiles envAll "s" tsOK []
          ([] ++ [MetadataRecord.mk "s" tsOK "e.wav" 0])).1,
        (processFiles envAll "s" tsOK []
          ([] ++ [MetadataRecord.mk "s" tsOK "e.wav" 0])).2) :=
  c8_zero_length_payload_processed envAll "s" tsOK "e.wav" "" 0 [] []
    (by decide) rfl

/-- C10: storage is append-only and non-idempotent: a request only ever
appends its own delta (`newRecords`) after the existing table, so prior
records are never updated or deleted; submitting the same batch twice
appends two independent deltas with no deduplication; every appended record
carries the request's `session_id` and `timestamp` verbatim and the
`file_name` of one of its files; and each entry of a success response
corresponds to exactly one appended record. -/
theorem c10_append_only_no_dedup (env env2 : Nat → Bool) (p : AudioPayload)
    (db : List MetadataRecord) :
    (process_audio env p db).2 = db ++ newRecords env p ∧
    (process_audio env2 p (process_audio env p db).2).2 =
      db ++ newRecords env p ++ newRecords env2 p ∧
    (∀ r ∈ newRecords env p, r.session_id = p.session_id ∧
      r.timestamp = p.timestamp ∧
      r.file_name ∈ p.audio_files.map AudioFile.file_name) ∧
    (∀ pf, (process_audio env p db).1 = .success pf →
      pf.length = (newRecords env p).length) := by
  refine ⟨process_audio_snd env p db, ?_, ?_, ?_⟩
  · rw [process_audio_snd env2 p (process_audio env p db).2,
      process_audio_snd env p db]
  · intro r hr
    unfold newRecords at hr
    cases hv : validate_payload p with
    | falsy =>
      rw [process_audio_falsy env p [] hv] at hr
      simp at hr
    | err d =>
      rw [process_audio_err env p [] d hv] at hr
      simp at hr
    | ok =>
      rw [process_audio_ok env p [] hv] at hr
      simp only [List.nil_append] at hr
      obtain ⟨⟨i, f⟩, hmem, hentry⟩ := List.mem_filterMap.mp hr
      have hf : f ∈ p.audio_files := by
        have hmem0 : (i, f) ∈ p.audio_files.enumFrom 0 := by
          simpa [List.enum] using hmem
        exact snd_mem_of_mem_enumFrom p.audio_files 0 (i, f) hmem0
      cases hdec : decodeAudio f.encoded_audio with
      | none => simp [dbEntry, hdec] at hentry
      | some n =>
        cases henv : env i with
        | false => simp [dbEntry, hdec, henv] at hentry
        | true =>
          simp only [dbEntry, hdec, henv] at hentry
          rw [if_pos trivial, Option.some.injEq] at hentry
          subst hentry
          exact ⟨rfl, rfl, List.mem_map_of_mem _ hf⟩
  · intro pf hpf
    cases hv : validate_payload p with
    | falsy =>
      rw [process_audio_falsy env p db hv] at hpf
      exact absurd hpf (by simp)
    | err d =>
      rw [process_audio_err env p db d hv] at hpf
      exact absurd hpf (by simp)
    | ok =>
      rw [process_audio_ok env p db hv] at hpf
      have hpf2 : pf = p.audio_files.enum.filterMap (respEntry env) :=
        (Response.success.inj hpf).symm
      subst hpf2
      unfold newRecords
      rw [process_audio_ok env p [] hv]
      simp only [List.nil_append]
      exact filterMap_resp_db_length env p.session_id p.timestamp
        p.audio_files.enum

theorem c10_append_only_no_dedup_witness :
    (process_audio envAll (AudioPayload.mk "s" tsOK [fileTwoBytes]) []).2 =
      [] ++ newRecords envAll (AudioPayload.mk "s" tsOK [fileTwoBytes]) :=
  (c10_append_only_no_dedup envAll envAll
    (AudioPayload.mk "s" tsOK [fileTwoBytes]) []).1
